import Mathlib

/-!
Verification of the cataloger repository's specification against a shallow
embedding of its Python sources.

Source files embedded below:
* `src/cataloger/container/runtime.py` — `ContainerRuntime`
* `src/cataloger/container/pool.py` — `ContainerPool`
* `src/cataloger/agent/loop.py` / `agent/tools.py` — `AgentLoop`
* `src/cataloger/storage/s3.py` — `S3Storage` path construction, listing,
  comment handling and `generate_timestamp`
* `src/cataloger/workflow/catalog.py` — `CatalogWorkflow.run` write ordering

Python strings are modelled as Lean `String`s; the string operations the
source relies on (`split`, `rsplit`, `rstrip`, `endswith`, `replace` of the
literal `".txt"`) are defined on the underlying character list with Python
semantics.  External collaborators (the docker daemon, the boto3 client, the
Anthropic client) are modelled as inputs: each embedded function takes the
behaviour of the collaborator for the calls it makes.
-/

namespace Cataloger

/-- Python `str.split(sep)` for a one-character separator, on character
lists.  Splitting the empty string yields one empty piece, as in Python. -/
def splitList (sep : Char) : List Char → List (List Char)
  | [] => [[]]
  | c :: rest =>
    if c = sep then [] :: splitList sep rest
    else
      match splitList sep rest with
      | [] => [[c]]
      | r :: rs => (c :: r) :: rs

/-- Python `str.split(sep)` on strings. -/
def pySplit (s : String) (sep : Char) : List String :=
  (splitList sep s.toList).map String.mk

/-- Python `str.rstrip(c)` for a one-character strip set. -/
def pyRstripChar (s : String) (c : Char) : String :=
  String.mk ((s.toList.reverse.dropWhile (fun x => x = c)).reverse)

/-- Python `str.rstrip()` (strip trailing whitespace). -/
def pyRstripWs (s : String) : String :=
  String.mk ((s.toList.reverse.dropWhile Char.isWhitespace).reverse)

/-- Split a character list at the first occurrence of `sep`, returning the
part before and the part after, or `none` when `sep` does not occur. -/
def breakAtFirst (sep : Char) : List Char → Option (List Char × List Char)
  | [] => none
  | c :: rest =>
    if c = sep then some ([], rest)
    else (breakAtFirst sep rest).map (fun p => (c :: p.1, p.2))

/-- Python `str.rsplit(sep, 1)`: split at the last occurrence of `sep`;
a string without `sep` yields a one-element list. -/
def pyRsplit1 (s : String) (sep : Char) : List String :=
  match breakAtFirst sep s.toList.reverse with
  | none => [s]
  | some p => [String.mk p.2.reverse, String.mk p.1.reverse]

/-- Python `str.endswith(suf)`. -/
def pyEndsWith (s suf : String) : Bool :=
  suf.toList.isSuffixOf s.toList

/-- Python `str.replace(".txt", "")`: remove every (left-to-right,
non-overlapping) occurrence of the four characters `.txt`. -/
def stripTxtAll : List Char → List Char
  | [] => []
  | '.' :: 't' :: 'x' :: 't' :: rest => stripTxtAll rest
  | c :: rest => c :: stripTxtAll rest

/-- A docker container as `pool.py` and `runtime.py` see it: its id and the
status that `container.reload()` reports at the moment the pool inspects
it. -/
structure Container where
  id : String
  status : String
deriving DecidableEq

/-- A raised Python exception: the exception class name and its message.
`runtime.py` defines the single class `ExecutionError`; `loop.py` and
`pool.py` raise `RuntimeError`. -/
structure PyError where
  cls : String
  msg : String
deriving DecidableEq

/-- What the in-container interpreter session does for one submitted code
block: either no output file appears within the supervisor's polling window
(`timeout`), or an output file appears whose payload before the
session-unique end-of-output marker is `out`, with `err = true` exactly when
the interpreter appended the `ERROR` sentinel line after the marker.
`runtime.py` removes the marker with `str.replace`, which recovers exactly
`out` because the marker is derived from a fresh session uuid and therefore
does not occur inside the payload. -/
inductive KernelOutcome
  | timeout
  | wrote (out : String) (err : Bool)
deriving DecidableEq

/-- `ContainerRuntime` state (`runtime.py`): the backing container, the
per-run environment passed to `__init__` (database connection string and
S3 configuration dict), and the two session histories.  `__init__` starts
with both histories empty. -/
structure ContainerRuntime where
  container : Container
  db_connection_string : Option String
  s3_config : List (String × String)
  code_history : List String
  output_history : List String
deriving DecidableEq

/-- `ContainerRuntime.__init__`: fresh histories, environment recorded. -/
def ContainerRuntime.init (c : Container) (db : Option String)
    (s3 : List (String × String)) : ContainerRuntime :=
  ⟨c, db, s3, [], []⟩

/-- `ContainerRuntime.execute(code, timeout)` (`runtime.py` lines 141-205),
given the kernel outcome `k` of this submission.  The code is appended to
`_code_history` first.  On timeout the method raises
`ExecutionError("Code execution timeout after {timeout}s")` without touching
`_output_history`.  When the sentinel is present it appends the rstripped
payload to `_output_history` and raises
`ExecutionError("Code execution failed:\n" + payload)`.  Otherwise it
appends and returns the rstripped payload. -/
def ContainerRuntime.execute (rt : ContainerRuntime) (code : String)
    (timeout : Nat) (k : KernelOutcome) :
    Except PyError String × ContainerRuntime :=
  let withCode : ContainerRuntime :=
    ⟨rt.container, rt.db_connection_string, rt.s3_config,
      rt.code_history ++ [code], rt.output_history⟩
  match k with
  | .timeout =>
    (Except.error ⟨"ExecutionError",
        "Code execution timeout after " ++ toString timeout ++ "s"⟩,
      withCode)
  | .wrote out err =>
    if err then
      (Except.error ⟨"ExecutionError", "Code execution failed:\n" ++ out⟩,
        ⟨withCode.container, withCode.db_connection_string, withCode.s3_config,
          withCode.code_history, withCode.output_history ++ [pyRstripWs out]⟩)
    else
      (Except.ok (pyRstripWs out),
        ⟨withCode.container, withCode.db_connection_string, withCode.s3_config,
          withCode.code_history, withCode.output_history ++ [pyRstripWs out]⟩)

/-- A sequence of `execute` calls (state only): each pair is the submitted
code and the kernel outcome of that submission.  The default call uses
`timeout = 60` as in the source. -/
def ContainerRuntime.executeSeq (rt : ContainerRuntime)
    (calls : List (String × KernelOutcome)) : ContainerRuntime :=
  calls.foldl (fun r p => (r.execute p.1 60 p.2).2) rt

/-- `ContainerRuntime.reset` (`runtime.py` lines 239-259): kill the
interpreter, clear both histories. -/
def ContainerRuntime.reset (rt : ContainerRuntime) : ContainerRuntime :=
  ⟨rt.container, rt.db_connection_string, rt.s3_config, [], []⟩

/-- One block of `get_session_script` output (`runtime.py` lines 220-235),
for the zero-based index `i`: the code banner, the raw code, a blank line,
the output banner, the output with each line commented (or the literal
`# (no output)` when the output is empty), and a trailing blank line. -/
def scriptBlock (i : Nat) (code output : String) : List String :=
  ["# === Code Block " ++ toString (i + 1) ++ " ==="] ++ [code] ++ [""] ++
    ["# --- Output " ++ toString (i + 1) ++ " ---"] ++
    (if output = "" then ["# (no output)"]
     else (pySplit output '\n').map (fun line => "# " ++ line)) ++ [""]

/-- The `script_parts` list built by the `for i, (code, output) in
enumerate(zip(...))` loop of `get_session_script`. -/
def scriptParts : List (Nat × String × String) → List String
  | [] => []
  | p :: rest => scriptBlock p.1 p.2.1 p.2.2 ++ scriptParts rest

/-- `ContainerRuntime.get_session_script` (`runtime.py` lines 211-237):
`"\n".join(script_parts)`. -/
def ContainerRuntime.get_session_script (rt : ContainerRuntime) : String :=
  String.intercalate "\n" (scriptParts ((rt.code_history.zip rt.output_history).enum))

/-- A content block of a model response (`loop.py` inspects `block.type`,
`block.id`, `block.name`, `block.input`).  The tool input dict is modelled
by its two possible fields: `code` (for `execute_python`) and `content`
(for `submit_html`); `none` means the field is absent from the dict. -/
structure ToolUseBlock where
  id : String
  name : String
  code : Option String
  content : Option String
deriving DecidableEq

/-- One block of `response.content`. -/
inductive ContentBlock
  | text (s : String)
  | tool_use (b : ToolUseBlock)
deriving DecidableEq

/-- `response.stop_reason`. -/
inductive StopReason
  | end_turn
  | tool_use
  | max_tokens
  | other (r : String)
deriving DecidableEq

/-- `response.usage`. -/
structure Usage where
  input_tokens : Nat
  output_tokens : Nat
deriving DecidableEq

/-- One model response. -/
structure Response where
  stop_reason : StopReason
  content : List ContentBlock
  usage : Usage
deriving DecidableEq

/-- One entry of the `messages` transcript: the opening user message, an
assistant message carrying response content, or a user message carrying
`tool_result` blocks (pairs of `tool_use_id` and result text). -/
inductive Message
  | user (text : String)
  | assistant (blocks : List ContentBlock)
  | tool_results (results : List (String × String))
deriving DecidableEq

/-- Result of `AgentLoop._handle_tool_call`: either a string to hand back as
tool-result content, or the `AgentTerminated` exception carrying the
submitted content. -/
inductive ToolCallResult
  | result (s : String)
  | terminated (content : String)
deriving DecidableEq

/-- The `RuntimeError`s `AgentLoop.run` can raise (`loop.py`), as distinct
failure modes together with their exact exception messages (below). -/
inductive LoopError
  | token_budget (used budget : Nat)
  | ended_without_submit
  | unexpected_stop (r : String)
  | max_iterations (m : Nat)
deriving DecidableEq

/-- The exact `RuntimeError` message of each loop failure. -/
def LoopError.message : LoopError → String
  | .token_budget used budget =>
    "Agent exceeded token budget: " ++ toString used ++ " > " ++ toString budget
  | .ended_without_submit => "Agent ended conversation without submitting HTML"
  | .unexpected_stop r => "Unexpected stop reason: " ++ r
  | .max_iterations m => "Agent exceeded max iterations: " ++ toString m

/-- `AgentLoop._handle_tool_call` (`loop.py` lines 194-234).  The kernel
outcome `k` is consumed only when `runtime.execute` is actually invoked;
`ExecutionError` (the only exception class `execute` raises) is caught and
rendered as `"Execution error:\n" + str(e)`. -/
def handle_tool_call (rt : ContainerRuntime) (k : KernelOutcome)
    (b : ToolUseBlock) : ToolCallResult × ContainerRuntime :=
  if b.name = "execute_python" then
    match b.code with
    | none =>
      (.result ("Error: execute_python call was truncated. Please retry with complete code."), rt)
    | some code =>
      match rt.execute code 60 k with
      | (Except.ok output, rt') => (.result output, rt')
      | (Except.error e, rt') => (.result ("Execution error:\n" ++ e.msg), rt')
  else if b.name = "submit_html" then
    match b.content with
    | none =>
      (.result ("Error: submit_html call was truncated. Please try again with complete HTML content."), rt)
    | some content => (.terminated content, rt)
  else
    (.result ("Unknown tool: " ++ b.name), rt)

/-- The per-response block dispatch shared by the `tool_use` and
`max_tokens` branches of `AgentLoop.run` (lines 122-141 and 154-173):
handle each `tool_use` block in order, collecting `(tool_use_id, content)`
result pairs; on `AgentTerminated` return the submitted content at once,
skipping the remaining blocks and discarding the collected results.
Kernel outcomes are drawn from the stream `ks` at the index
`code_history.length`, the number of `execute` calls made so far. -/
def processBlocks (ks : Nat → KernelOutcome) :
    List ContentBlock → ContainerRuntime →
    List (String × String) × Option String × ContainerRuntime
  | [], rt => ([], none, rt)
  | .text _ :: rest, rt => processBlocks ks rest rt
  | .tool_use b :: rest, rt =>
    match handle_tool_call rt (ks rt.code_history.length) b with
    | (.terminated c, rt') => ([], some c, rt')
    | (.result s, rt') =>
      match processBlocks ks rest rt' with
      | (rs, t, rt'') => ((b.id, s) :: rs, t, rt'')

/-- Whether a response contains any `tool_use` block (the `has_tool_calls`
flag of the `max_tokens` branch). -/
def hasToolUse (blocks : List ContentBlock) : Bool :=
  blocks.any (fun b => match b with | .tool_use _ => true | .text _ => false)

/-- Mutable state of one `AgentLoop.run` invocation: the transcript, the
accumulated token usage, and the runtime. -/
structure LoopState where
  messages : List Message
  input_tokens : Nat
  output_tokens : Nat
  rt : ContainerRuntime

/-- The `while iteration < max_iterations` loop of `AgentLoop.run`
(`loop.py` lines 77-183), with `fuel` the number of remaining iterations.
`model` is the Anthropic client: the response it returns to a
`messages.create` call carrying the current transcript.  Token usage is
accumulated and the output budget checked before any block of the response
is dispatched.  On success the submitted content and the final runtime are
returned. -/
def runAux (model : List Message → Response) (ks : Nat → KernelOutcome)
    (max_tokens : Nat) : Nat → LoopState → Except LoopError (String × ContainerRuntime)
  | 0, _ => Except.error (.max_iterations 50)
  | fuel + 1, st =>
    let response := model st.messages
    let inTok := st.input_tokens + response.usage.input_tokens
    let outTok := st.output_tokens + response.usage.output_tokens
    if outTok > max_tokens then
      Except.error (.token_budget outTok max_tokens)
    else
      let msgs1 := st.messages ++ [.assistant response.content]
      match response.stop_reason with
      | .end_turn => Except.error .ended_without_submit
      | .tool_use =>
        match processBlocks ks response.content st.rt with
        | (_, some c, rt') => Except.ok (c, rt')
        | (results, none, rt') =>
          runAux model ks max_tokens fuel
            ⟨msgs1 ++ [.tool_results results], inTok, outTok, rt'⟩
      | .max_tokens =>
        match processBlocks ks response.content st.rt with
        | (_, some c, rt') => Except.ok (c, rt')
        | (results, none, rt') =>
          if hasToolUse response.content then
            runAux model ks max_tokens fuel
              ⟨msgs1 ++ [.tool_results results], inTok, outTok, rt'⟩
          else
            runAux model ks max_tokens fuel ⟨msgs1, inTok, outTok, rt'⟩
      | .other r => Except.error (.unexpected_stop r)

/-- The opening user message of `AgentLoop.run` (line 63), with `ctx` the
`json.dumps(context, indent=2)` serialization. -/
def initMessage (ctx : String) : String :=
  "Context:\n```json\n" ++ ctx ++ "\n```\n\nBegin your analysis."

/-- `AgentLoop.run(system_prompt, context)` (`loop.py` lines 46-192): start
from the single context message and iterate with the hard cap of 50
iterations and a fresh token counter, as set up by `__init__`. -/
def AgentLoop.run (model : List Message → Response) (ks : Nat → KernelOutcome)
    (max_tokens : Nat) (rt : ContainerRuntime) (ctx : String) :
    Except LoopError (String × ContainerRuntime) :=
  runAux model ks max_tokens 50 ⟨[.user (initMessage ctx)], 0, 0, rt⟩

/-- The errors `ContainerPool.acquire` can raise (`pool.py`): the
`RuntimeError("Container pool exhausted (size={pool_size})")` of line 143
and the `RuntimeError` of `_create_container` line 111 when the new
container is not running. -/
inductive AcquireError
  | pool_exhausted (size : Nat)
  | create_failed (status : String)
deriving DecidableEq

/-- `ContainerPool` state (`pool.py`): the bound, the idle containers
(`_available`, popped from the back), and the ids of issued containers
(`_in_use`, a set modelled as a duplicate-free list). -/
structure ContainerPool where
  pool_size : Nat
  available : List Container
  in_use : List String
deriving DecidableEq

/-- `ContainerPool.acquire` (`pool.py` lines 115-150).  `newC` is the
container the docker daemon would create and report after
`_create_container`'s `reload()`, used only when the idle list is empty and
the pool is under its bound.  An idle container is popped from the back of
`_available`; its reloaded status is `Container.status`, and a non-running
container is restarted (modelled as forcing the status to `"running"`).
A fresh `ContainerRuntime` is constructed around the chosen container with
the new per-run environment and empty histories. -/
def ContainerPool.acquire (p : ContainerPool) (db : Option String)
    (s3 : List (String × String)) (newC : Container) :
    Except AcquireError (ContainerRuntime × ContainerPool) :=
  match p.available.getLast? with
  | some c =>
    let c' := if c.status = "running" then c else ⟨c.id, "running"⟩
    Except.ok (ContainerRuntime.init c' db s3,
      ⟨p.pool_size, p.available.dropLast, p.in_use.insert c'.id⟩)
  | none =>
    if p.in_use.length < p.pool_size then
      if newC.status = "running" then
        Except.ok (ContainerRuntime.init newC db s3,
          ⟨p.pool_size, p.available, p.in_use.insert newC.id⟩)
      else
        Except.error (.create_failed newC.status)
    else
      Except.error (.pool_exhausted p.pool_size)

/-- `generate_timestamp`'s input: the `datetime.utcnow()` value, by its
calendar fields. -/
structure PyDatetime where
  year : Nat
  month : Nat
  day : Nat
  hour : Nat
  minute : Nat
  second : Nat
deriving DecidableEq

/-- The fields of a datetime, most significant first; for valid UTC
datetimes, chronological order is lexicographic order on this list. -/
def PyDatetime.fields (d : PyDatetime) : List Nat :=
  [d.year, d.month, d.day, d.hour, d.minute, d.second]

/-- The range `datetime.utcnow()` can produce: `datetime` years run out at
9999, and the clock started after 1970; the remaining fields are ordinary
calendar bounds. -/
def PyDatetime.valid (d : PyDatetime) : Prop :=
  1970 ≤ d.year ∧ d.year ≤ 9999 ∧ 1 ≤ d.month ∧ d.month ≤ 12 ∧
    1 ≤ d.day ∧ d.day ≤ 31 ∧ d.hour ≤ 23 ∧ d.minute ≤ 59 ∧ d.second ≤ 59

instance (d : PyDatetime) : Decidable d.valid := by
  unfold PyDatetime.valid
  infer_instance

/-- Chronological order of UTC instants, as lexicographic order on the
calendar fields. -/
def PyDatetime.chronLe (a b : PyDatetime) : Prop :=
  a.fields = b.fields ∨ List.Lex (· < ·) a.fields b.fields

/-- `n` rendered as exactly `k` zero-padded decimal digits (the `strftime`
fields `%Y %m %d %H %M %S` for in-range values). -/
def padDigits : Nat → Nat → List Char
  | 0, _ => []
  | k + 1, n => padDigits k (n / 10) ++ [Nat.digitChar (n % 10)]

/-- The character list of `strftime("%Y-%m-%dT%H:%M:%SZ")`. -/
def tsChars (d : PyDatetime) : List Char :=
  padDigits 4 d.year ++ ['-'] ++ padDigits 2 d.month ++ ['-'] ++
    padDigits 2 d.day ++ ['T'] ++ padDigits 2 d.hour ++ [':'] ++
    padDigits 2 d.minute ++ [':'] ++ padDigits 2 d.second ++ ['Z']

/-- `generate_timestamp()` (`s3.py` lines 433-435):
`datetime.utcnow().strftime("%Y-%m-%dT%H:%M:%SZ")`, as a function of the
`utcnow` value. -/
def generate_timestamp (now : PyDatetime) : String :=
  String.mk (tsChars now)

/-- The timestamp-extraction step of `S3Storage.list_timestamps` (`s3.py`
lines 233-239) applied to one `CommonPrefixes` entry: strip trailing
slashes, split on `/`, and take the last part when there are at least
two. -/
def timestampOfItem (item : String) : Option String :=
  let parts := pySplit (pyRstripChar item '/') '/'
  if parts.length ≥ 2 then parts.getLast? else none

/-- `S3Storage.list_timestamps(prefix, limit)` (`s3.py` lines 217-243) as a
function of the `CommonPrefixes` list returned by the backing
`list_objects_v2` call: extract the timestamps in order, sort them
descending (`timestamps.sort(reverse=True)`; insertion sort by `≥` computes
the same list since string order is total and antisymmetric), and truncate
to `limit`. -/
def list_timestamps (items : List String) (limit : Nat) : List String :=
  let timestamps := items.filterMap timestampOfItem
  (List.insertionSort (· ≥ ·) timestamps).take limit

/-- The object key `S3Storage.write_comment(prefix, timestamp, user,
comment)` writes to (`s3.py` lines 342-344), with `now` the
`generate_timestamp()` value taken at write time. -/
def writeCommentKey (pfx timestamp user now : String) : String :=
  pfx ++ "/" ++ timestamp ++ "/comments/" ++ user ++ "-" ++ now ++ ".txt"

/-- One parsed entry of `S3Storage.list_comments` (`s3.py` lines 375-390). -/
structure CommentEntry where
  filename : String
  key : String
  user : String
  date : String
deriving DecidableEq

/-- The per-key parsing step of `list_comments`: keep `.txt` keys, take the
filename after the last `/`, split it as `user-timestamp.txt` with
`filename.rsplit("-", 1)`, and strip the `".txt"` with `str.replace`. -/
def commentEntryOfKey (key : String) : Option CommentEntry :=
  if pyEndsWith key (".txt") then
    let filename := ((pySplit key '/').getLast?).getD ""
    match pyRsplit1 filename '-' with
    | [user, datePart] =>
      some ⟨filename, key, user, String.mk (stripTxtAll datePart.toList)⟩
    | _ => none
  else
    none

/-- `S3Storage.list_comments(prefix, timestamp)` (`s3.py` lines 357-395) as
a function of the `Contents` keys returned by the backing `list_objects_v2`
call: parse each key and sort the entries by date, newest first. -/
def list_comments (keys : List String) : List CommentEntry :=
  List.insertionSort (fun a b : CommentEntry => b.date ≤ a.date)
    (keys.filterMap commentEntryOfKey)

/-- The observable object-store and runtime events of one
`CatalogWorkflow.run` invocation, in program order. -/
inductive WfEvent
  | acquire
  | write_script (filename : String)
  | write_html (filename : String)
  | reset
  | release
deriving DecidableEq

/-- The event trace of `CatalogWorkflow.run` (`catalog.py` lines 46-161) as
a function of the outcomes of its two agent runs.  A failed agent run
raises out of the `try` block, so only `release` (the `finally` clause)
follows it.  Store writes that themselves raise would truncate this trace
further; every theorem below quantifies over all prefixes of the trace, so
truncation cannot break a proved ordering property. -/
def workflowTrace (catalogRun summaryRun : Except LoopError String) : List WfEvent :=
  [.acquire] ++
    match catalogRun with
    | .error _ => [.release]
    | .ok _ =>
      [.write_script ("catalog_script.py"), .write_html ("catalog.html"), .reset] ++
        match summaryRun with
        | .error _ => [.release]
        | .ok _ =>
          [.write_script ("summary_script.py"), .write_html ("recent_summary.html"),
            .release]

/-- Spec-side rendering of the replay script, following the specification's
words: for each index `i` from 1..N in order, emit the banner
`# === Code Block i ===`, the raw code, a blank line, the banner
`# --- Output i ---`, then the output with every line prefixed by `# ` when
non-empty or the single line `# (no output)` when empty, followed by a
trailing blank line. -/
def specBlocksFrom : Nat → List String → List String → List String
  | _, [], _ => []
  | _, _ :: _, [] => []
  | i, c :: cs, o :: os =>
    ["# === Code Block " ++ toString i ++ " ==="] ++ [c] ++ [""] ++
      ["# --- Output " ++ toString i ++ " ---"] ++
      (if o = "" then ["# (no output)"]
       else (pySplit o '\n').map (fun line => "# " ++ line)) ++
      [""] ++ specBlocksFrom (i + 1) cs os

/-- Spec-side replay script: the blocks for indices 1..N joined by
newlines. -/
def sessionScriptSpec (cs os : List String) : String :=
  String.intercalate "\n" (specBlocksFrom 1 cs os)

/-- A well-formed submit call: a `submit_html` tool-use block whose input
carries the `content` field. -/
def wellFormedSubmit (tb : ToolUseBlock) : Prop :=
  tb.name = "submit_html" ∧ tb.content ≠ none

instance (tb : ToolUseBlock) : Decidable (wellFormedSubmit tb) := by
  unfold wellFormedSubmit
  infer_instance

/-- A model that never makes a well-formed submit call, whatever transcript
it is shown. -/
def neverSubmits (model : List Message → Response) : Prop :=
  ∀ msgs tb, ContentBlock.tool_use tb ∈ (model msgs).content → ¬ wellFormedSubmit tb

/-- A fixed container, kernel-outcome stream and runtime used by the
concrete instantiations below. -/
def cont0 : Container := ⟨"c0", "running"⟩

/-- Constant kernel behaviour: every submission succeeds with output "4". -/
def ks0 : Nat → KernelOutcome := fun _ => .wrote ("4") false

/-- A freshly initialised runtime on `cont0`. -/
def rt0 : ContainerRuntime := ContainerRuntime.init cont0 none []

/-- A model that always stops with `end_turn` and no content. -/
def endTurnModel : List Message → Response := fun _ => ⟨.end_turn, [], ⟨0, 0⟩⟩

/-- A model that immediately makes a well-formed submit call. -/
def submitModel : List Message → Response :=
  fun _ => ⟨.tool_use, [.tool_use ⟨"id1", "submit_html", none, some ("<html>ok</html>")⟩], ⟨1, 1⟩⟩

/-! ## Helper lemmas about the runtime -/

/-- One `execute` call always appends exactly the submitted code to the code
history. -/
theorem execute_code_history (rt : ContainerRuntime) (code : String)
    (t : Nat) (k : KernelOutcome) :
    (rt.execute code t k).2.code_history = rt.code_history ++ [code] := by
  cases k with
  | timeout => rfl
  | wrote out err => cases err <;> rfl

/-- One `execute` call appends to the output history exactly when the kernel
produced an output file; a timed-out call leaves it unchanged. -/
theorem execute_output_history (rt : ContainerRuntime) (code : String)
    (t : Nat) (k : KernelOutcome) :
    (rt.execute code t k).2.output_history =
      match k with
      | .timeout => rt.output_history
      | .wrote out _ => rt.output_history ++ [pyRstripWs out] := by
  cases k with
  | timeout => rfl
  | wrote out err => cases err <;> rfl

/-- History lengths after a sequence of `execute` calls, from an arbitrary
starting runtime. -/
theorem executeSeq_lengths (calls : List (String × KernelOutcome)) :
    ∀ rt : ContainerRuntime,
      (rt.executeSeq calls).code_history.length =
        rt.code_history.length + calls.length ∧
      ((∀ p ∈ calls, p.2 ≠ KernelOutcome.timeout) →
        (rt.executeSeq calls).output_history.length =
          rt.output_history.length + calls.length) := by
  induction calls with
  | nil => intro rt; simp [ContainerRuntime.executeSeq]
  | cons p rest ih =>
    intro rt
    have hstep := ih ((rt.execute p.1 60 p.2).2)
    constructor
    · have h1 := hstep.1
      simp only [ContainerRuntime.executeSeq, List.foldl_cons] at h1 ⊢
      rw [h1, execute_code_history]
      simp
      omega
    · intro hnt
      have h2 := hstep.2 (fun q hq => hnt q (List.mem_cons_of_mem p hq))
      simp only [ContainerRuntime.executeSeq, List.foldl_cons] at h2 ⊢
      rw [h2, execute_output_history]
      have hp2 : p.2 ≠ KernelOutcome.timeout := hnt p (List.mem_cons_self p rest)
      cases hk : p.2 with
      | timeout => exact absurd hk hp2
      | wrote out err => simp; omega

/-! ## C1 -/

/-- C1 (corrected): on a freshly initialised Runtime, after N `execute`
calls without an intervening `reset`, the code history always has length N,
and the output history also has length N provided no call timed out.  (The
claim's "regardless of ... timed out" fails: the timeout branch of
`execute` raises before appending to `_output_history`; see the
counterexample.) -/
theorem history_lengths_after_executeSeq (c : Container) (db : Option String)
    (s3 : List (String × String)) (calls : List (String × KernelOutcome)) :
    ((ContainerRuntime.init c db s3).executeSeq calls).code_history.length =
        calls.length ∧
      ((∀ p ∈ calls, p.2 ≠ KernelOutcome.timeout) →
        ((ContainerRuntime.init c db s3).executeSeq calls).output_history.length =
          calls.length) := by
  have h := executeSeq_lengths calls (ContainerRuntime.init c db s3)
  simpa [ContainerRuntime.init] using h

/-- C1 witness: two calls, one successful and one sentinel-errored, leave
both histories at length 2. -/
theorem history_lengths_after_executeSeq_witness :
    (∀ p ∈ [(("2 + 2" : String), KernelOutcome.wrote ("4\n") false),
        (("boom" : String), KernelOutcome.wrote ("ValueError\n") true)],
      p.2 ≠ KernelOutcome.timeout) ∧
    ((ContainerRuntime.init cont0 none []).executeSeq
        [("2 + 2", .wrote ("4\n") false), ("boom", .wrote ("ValueError\n") true)]).output_history.length = 2 :=
  ⟨by decide,
    (history_lengths_after_executeSeq cont0 none []
      [("2 + 2", .wrote ("4\n") false), ("boom", .wrote ("ValueError\n") true)]).2 (by decide)⟩

/-- C1 counterexample: a single timed-out `execute` call leaves
`code_history` at length 1 but `output_history` at length 0, so the two
histories do not both have length N when a call times out. -/
theorem history_lengths_timeout_cex :
    ((ContainerRuntime.init cont0 none []).executeSeq [("2 + 2", .timeout)]).code_history.length = 1 ∧
    ((ContainerRuntime.init cont0 none []).executeSeq [("2 + 2", .timeout)]).output_history.length = 0 ∧
    ¬ ((ContainerRuntime.init cont0 none []).executeSeq [("2 + 2", .timeout)]).output_history.length = 1 := by
  refine ⟨rfl, rfl, ?_⟩
  decide

/-! ## C4 -/

/-- The enumerated zip rendered by `get_session_script` equals the
spec-side rendering, for any starting index. -/
theorem scriptParts_enumFrom (cs : List String) :
    ∀ (os : List String) (n : Nat),
      scriptParts ((cs.zip os).enumFrom n) = specBlocksFrom (n + 1) cs os := by
  induction cs with
  | nil => intro os n; cases os <;> rfl
  | cons c cs ih =>
    intro os n
    cases os with
    | nil => rfl
    | cons o os =>
      have h := ih os (n + 1)
      simp only [List.zip] at h
      simp only [List.zip_cons_cons, List.enumFrom_cons, scriptParts, specBlocksFrom,
        scriptBlock, List.zip, h]

/-- C4 (confirmed): for a Runtime whose code and output histories have equal
length N, `get_session_script()` emits, for each index i from 1..N in
order, the banner `# === Code Block i ===`, the raw code, a blank line,
the banner `# --- Output i ---`, then the output with every line prefixed
by `# ` when non-empty or the single line `# (no output)` when empty,
followed by a trailing blank line, all joined with newlines. -/
theorem get_session_script_spec (c : Container) (db : Option String)
    (s3 : List (String × String)) (cs os : List String)
    (_hlen : cs.length = os.length) :
    ContainerRuntime.get_session_script ⟨c, db, s3, cs, os⟩ =
      sessionScriptSpec cs os := by
  unfold ContainerRuntime.get_session_script sessionScriptSpec
  rw [show (cs.zip os).enum = (cs.zip os).enumFrom 0 from rfl,
    scriptParts_enumFrom cs os 0]

/-- C4 witness: the three-block seed session. -/
theorem get_session_script_spec_witness :
    (["x = 10", "print(x * 2)", "y = 'hi'"] : List String).length =
        (["", "20", ""] : List String).length ∧
      ContainerRuntime.get_session_script
          ⟨cont0, none, [], ["x = 10", "print(x * 2)", "y = 'hi'"], ["", "20", ""]⟩ =
        sessionScriptSpec ["x = 10", "print(x * 2)", "y = 'hi'"] ["", "20", ""] :=
  ⟨rfl, get_session_script_spec cont0 none []
    ["x = 10", "print(x * 2)", "y = 'hi'"] ["", "20", ""] rfl⟩

/-! ## C6 -/

/-- The timeout message and the sentinel message of `execute` are never
equal, so the two failure modes remain distinguishable by message. -/
theorem timeout_msg_ne_failed_msg (t : Nat) (out : String) :
    "Code execution timeout after " ++ toString t ++ "s" ≠
      "Code execution failed:\n" ++ out := by
  intro h
  have h' := congrArg String.data h
  simp only [String.data_append, List.append_assoc] at h'
  have e := congrArg (fun l => l[15]?) h'
  simp at e

/-- C6 (corrected): `execute` raises on a missing output file and on the
error sentinel, with the two exact messages of the source, and the two
messages are always distinguishable from each other — but both failures
are raised as the same single exception class `ExecutionError`; the
separate `Timeout` class the claim names does not exist (see the
counterexample). -/
theorem execute_failure_modes (rt : ContainerRuntime) (code : String)
    (t : Nat) (out : String) :
    (rt.execute code t .timeout).1 =
        Except.error ⟨"ExecutionError", "Code execution timeout after " ++ toString t ++ "s"⟩ ∧
      (rt.execute code t (.wrote out true)).1 =
        Except.error ⟨"ExecutionError", "Code execution failed:\n" ++ out⟩ ∧
      ("Code execution timeout after " ++ toString t ++ "s" : String) ≠
        "Code execution failed:\n" ++ out :=
  ⟨rfl, rfl, timeout_msg_ne_failed_msg t out⟩

/-- C6 counterexample: the timed-out call raises the class
`ExecutionError`, not a distinct class `Timeout`; both failure modes carry
the same exception class. -/
theorem execute_timeout_class_cex :
    (rt0.execute ("2 + 2") 60 .timeout).1 =
        Except.error ⟨"ExecutionError", "Code execution timeout after 60s"⟩ ∧
      (∀ e : PyError, (rt0.execute ("2 + 2") 60 .timeout).1 = Except.error e → e.cls ≠ "Timeout") ∧
      (∀ e e' : PyError, (rt0.execute ("2 + 2") 60 .timeout).1 = Except.error e →
        (rt0.execute ("raise ValueError") 60 (.wrote ("boom") true)).1 = Except.error e' →
        e.cls = e'.cls) := by
  refine ⟨rfl, ?_, ?_⟩
  · intro e he
    have : e = ⟨"ExecutionError", "Code execution timeout after 60s"⟩ := by
      have h := he.symm.trans (rfl :
        (rt0.execute ("2 + 2") 60 .timeout).1 =
          Except.error ⟨"ExecutionError", "Code execution timeout after 60s"⟩)
      exact (Except.error.inj h)
    rw [this]
    decide
  · intro e e' he he'
    have h1 : e = ⟨"ExecutionError", "Code execution timeout after 60s"⟩ :=
      Except.error.inj (he.symm.trans rfl)
    have h2 : e' = ⟨"ExecutionError", "Code execution failed:\nboom"⟩ :=
      Except.error.inj (he'.symm.trans rfl)
    rw [h1, h2]

/-! ## Helper lemmas about the agent loop -/

/-- `_handle_tool_call` raises `AgentTerminated` only on a `submit_html`
block whose input has the `content` field, and then leaves the runtime
untouched. -/
theorem handle_tool_call_terminated (rt : ContainerRuntime) (k : KernelOutcome)
    (b : ToolUseBlock) (c : String) (rt' : ContainerRuntime)
    (h : handle_tool_call rt k b = (.terminated c, rt')) :
    b.name = "submit_html" ∧ b.content = some c ∧ rt' = rt := by
  unfold handle_tool_call at h
  by_cases h1 : b.name = "execute_python"
  · rw [if_pos h1] at h
    cases hc : b.code with
    | none => rw [hc] at h; exact absurd h (by simp)
    | some code =>
      rw [hc] at h
      dsimp only at h
      rcases hx : rt.execute code 60 k with ⟨res, rtx⟩
      rw [hx] at h
      cases res <;> simp at h
  · rw [if_neg h1] at h
    by_cases h2 : b.name = "submit_html"
    · rw [if_pos h2] at h
      cases hc : b.content with
      | none => rw [hc] at h; exact absurd h (by simp)
      | some content =>
        rw [hc] at h
        simp only [Prod.mk.injEq, ToolCallResult.terminated.injEq] at h
        exact ⟨h2, congrArg some h.1, h.2.symm⟩
    · rw [if_neg h2] at h
      exact absurd h (by simp)

/-- On a block list without a well-formed submit call, `processBlocks` does
not terminate the loop. -/
theorem processBlocks_no_submit (ks : Nat → KernelOutcome)
    (blocks : List ContentBlock) :
    ∀ rt : ContainerRuntime,
      (∀ tb, ContentBlock.tool_use tb ∈ blocks → ¬ wellFormedSubmit tb) →
      (processBlocks ks blocks rt).2.1 = none := by
  induction blocks with
  | nil => intro rt _; rfl
  | cons blk rest ih =>
    intro rt hns
    cases blk with
    | text s =>
      simpa [processBlocks] using ih rt (fun tb htb => hns tb (List.mem_cons_of_mem _ htb))
    | tool_use b =>
      have hb : ¬ wellFormedSubmit b := hns b (List.mem_cons_self _ _)
      simp only [processBlocks]
      rcases hh : handle_tool_call rt (ks rt.code_history.length) b with ⟨res, rtx⟩
      cases res with
      | terminated c =>
        obtain ⟨h1, h2, _⟩ := handle_tool_call_terminated _ _ _ _ _ hh
        exact absurd ⟨h1, by rw [h2]; exact Option.some_ne_none c⟩ hb
      | result s =>
        have := ih rtx (fun tb htb => hns tb (List.mem_cons_of_mem _ htb))
        rcases hp : processBlocks ks rest rtx with ⟨rs, t, rty⟩
        rw [hp] at this
        simpa [hp] using this

/-- When `processBlocks` terminates the loop with content `c`, the block
list contains a well-formed `submit_html` call carrying exactly `c`. -/
theorem processBlocks_terminated (ks : Nat → KernelOutcome)
    (blocks : List ContentBlock) :
    ∀ (rt : ContainerRuntime) (c : String),
      (processBlocks ks blocks rt).2.1 = some c →
      ∃ tb, ContentBlock.tool_use tb ∈ blocks ∧ tb.name = "submit_html" ∧
        tb.content = some c := by
  induction blocks with
  | nil => intro rt c h; exact absurd h (by simp [processBlocks])
  | cons blk rest ih =>
    intro rt c h
    cases blk with
    | text s =>
      obtain ⟨tb, htb, h1, h2⟩ := ih rt c (by simpa [processBlocks] using h)
      exact ⟨tb, List.mem_cons_of_mem _ htb, h1, h2⟩
    | tool_use b =>
      simp only [processBlocks] at h
      rcases hh : handle_tool_call rt (ks rt.code_history.length) b with ⟨res, rtx⟩
      rw [hh] at h
      cases res with
      | terminated c' =>
        simp only at h
        obtain ⟨h1, h2, _⟩ := handle_tool_call_terminated _ _ _ _ _ hh
        refine ⟨b, List.mem_cons_self _ _, h1, ?_⟩
        rw [h2, Option.some_inj.mpr (Option.some_inj.mp h)]
      | result s =>
        dsimp only at h
        obtain ⟨tb, htb, h1, h2⟩ := ih rtx c h
        exact ⟨tb, List.mem_cons_of_mem _ htb, h1, h2⟩

/-- Whenever `runAux` returns success, some response of the model contained
a well-formed `submit_html` block whose `content` is exactly the returned
value. -/
theorem runAux_ok_submitted (model : List Message → Response)
    (ks : Nat → KernelOutcome) (mt : Nat) :
    ∀ (fuel : Nat) (st : LoopState) (x : String) (rt' : ContainerRuntime),
      runAux model ks mt fuel st = Except.ok (x, rt') →
      ∃ msgs tb, ContentBlock.tool_use tb ∈ (model msgs).content ∧
        tb.name = "submit_html" ∧ tb.content = some x := by
  intro fuel
  induction fuel with
  | zero => intro st x rt' h; exact absurd h (by simp [runAux])
  | succ n ih =>
    intro st x rt' h
    rw [runAux] at h
    by_cases hb : st.output_tokens + (model st.messages).usage.output_tokens > mt
    · rw [if_pos hb] at h
      exact absurd h (by simp)
    · rw [if_neg hb] at h
      cases hsr : (model st.messages).stop_reason with
      | end_turn => rw [hsr] at h; exact absurd h (by simp)
      | other r => rw [hsr] at h; exact absurd h (by simp)
      | tool_use =>
        rw [hsr] at h
        rcases hp : processBlocks ks (model st.messages).content st.rt with ⟨rs, t, rtx⟩
        rw [hp] at h
        cases t with
        | some c =>
          dsimp only at h
          simp only [Except.ok.injEq, Prod.mk.injEq] at h
          obtain ⟨tb, htb, h1, h2⟩ :=
            processBlocks_terminated ks (model st.messages).content st.rt c (by rw [hp])
          exact ⟨st.messages, tb, htb, h1, h.1 ▸ h2⟩
        | none =>
          dsimp only at h
          exact ih _ x rt' h
      | max_tokens =>
        rw [hsr] at h
        rcases hp : processBlocks ks (model st.messages).content st.rt with ⟨rs, t, rtx⟩
        rw [hp] at h
        cases t with
        | some c =>
          dsimp only at h
          simp only [Except.ok.injEq, Prod.mk.injEq] at h
          obtain ⟨tb, htb, h1, h2⟩ :=
            processBlocks_terminated ks (model st.messages).content st.rt c (by rw [hp])
          exact ⟨st.messages, tb, htb, h1, h.1 ▸ h2⟩
        | none =>
          dsimp only at h
          by_cases ht : hasToolUse (model st.messages).content = true
          · rw [if_pos ht] at h; exact ih _ x rt' h
          · rw [if_neg ht] at h; exact ih _ x rt' h

/-! ## C2 -/

/-- C2 (corrected): the only successful termination of `AgentLoop.run` is a
well-formed submit call, whose `content` is the returned value; and a model
that never makes a well-formed submit call always fails — but the failure
is not restricted to the iteration cap and the token budget: it can also be
`AgentEndedWithoutSubmit` (stop reason `end_turn`) or an unexpected stop
reason, as the counterexample shows. -/
theorem agent_run_termination (model : List Message → Response)
    (ks : Nat → KernelOutcome) (mt : Nat) (rt : ContainerRuntime) (ctx : String) :
    (∀ x rt', AgentLoop.run model ks mt rt ctx = Except.ok (x, rt') →
      ∃ msgs tb, ContentBlock.tool_use tb ∈ (model msgs).content ∧
        tb.name = "submit_html" ∧ tb.content = some x) ∧
    (neverSubmits model → ∃ e, AgentLoop.run model ks mt rt ctx = Except.error e) := by
  constructor
  · intro x rt' h
    unfold AgentLoop.run at h
    exact runAux_ok_submitted model ks mt 50 _ x rt' h
  · intro hns
    cases hrun : AgentLoop.run model ks mt rt ctx with
    | error e => exact ⟨e, rfl⟩
    | ok p =>
      obtain ⟨x, rtx⟩ := p
      unfold AgentLoop.run at hrun
      obtain ⟨msgs, tb, htb, h1, h2⟩ :=
        runAux_ok_submitted model ks mt 50 _ x rtx hrun
      exact absurd ⟨h1, by rw [h2]; exact Option.some_ne_none _⟩ (hns msgs tb htb)

/-- C2 witness: a model that submits at once yields that submission, and
the end-turn model (which never submits) fails. -/
theorem agent_run_termination_witness :
    (∃ msgs tb, ContentBlock.tool_use tb ∈ (submitModel msgs).content ∧
      tb.name = "submit_html" ∧ tb.content = some ("<html>ok</html>")) ∧
    (∃ e, AgentLoop.run endTurnModel ks0 100000 rt0 ("ctx") = Except.error e) :=
  ⟨(agent_run_termination submitModel ks0 100000 rt0 ("ctx")).1 ("<html>ok</html>") rt0 rfl,
    (agent_run_termination endTurnModel ks0 100000 rt0 ("ctx")).2
      (fun msgs tb htb => absurd htb (by simp [endTurnModel]))⟩

/-- C2 counterexample: the end-turn model never makes a well-formed submit
call, yet `run` fails with the "ended without submitting" error — neither
`MaxIterationsExceeded` nor `TokenBudgetExceeded`. -/
theorem agent_run_end_turn_cex :
    neverSubmits endTurnModel ∧
    AgentLoop.run endTurnModel ks0 100000 rt0 ("ctx") =
      Except.error LoopError.ended_without_submit ∧
    (∀ u b : Nat, AgentLoop.run endTurnModel ks0 100000 rt0 ("ctx") ≠
      Except.error (LoopError.token_budget u b)) ∧
    (∀ m : Nat, AgentLoop.run endTurnModel ks0 100000 rt0 ("ctx") ≠
      Except.error (LoopError.max_iterations m)) := by
  refine ⟨?_, rfl, ?_, ?_⟩
  · intro msgs tb htb
    exact absurd htb (by simp [endTurnModel])
  · intro u b h
    rw [show AgentLoop.run endTurnModel ks0 100000 rt0 ("ctx") =
      Except.error LoopError.ended_without_submit from rfl] at h
    simp at h
  · intro m h
    rw [show AgentLoop.run endTurnModel ks0 100000 rt0 ("ctx") =
      Except.error LoopError.ended_without_submit from rfl] at h
    simp at h

/-! ## C5 -/

/-- C5 (corrected): a truncated `execute_python` tool-use block (no `code`
field) yields exactly the source's retry message — which names
`execute_python`, not `execute_code` — without invoking `Runtime.execute`
(the runtime, and with it the execution count, is unchanged and the kernel
outcome is never consumed); a `submit_html` block without `content` is
treated analogously with its own message; and a response whose tool-use
blocks contain no well-formed submit call makes the loop continue to the
next iteration rather than terminate. -/
theorem truncated_tool_call_recovery (rt : ContainerRuntime) (k : KernelOutcome)
    (b : ToolUseBlock) :
    (b.name = "execute_python" → b.code = none →
      handle_tool_call rt k b =
        (.result ("Error: execute_python call was truncated. Please retry with complete code."), rt)) ∧
    (b.name = "submit_html" → b.content = none →
      handle_tool_call rt k b =
        (.result ("Error: submit_html call was truncated. Please try again with complete HTML content."), rt)) ∧
    (∀ (model : List Message → Response) (ks : Nat → KernelOutcome)
        (mt fuel : Nat) (st : LoopState),
      ¬ st.output_tokens + (model st.messages).usage.output_tokens > mt →
      (model st.messages).stop_reason = StopReason.tool_use →
      (∀ tb, ContentBlock.tool_use tb ∈ (model st.messages).content → ¬ wellFormedSubmit tb) →
      ∃ st', runAux model ks mt (fuel + 1) st = runAux model ks mt fuel st') := by
  refine ⟨?_, ?_, ?_⟩
  · intro hn hc
    unfold handle_tool_call
    rw [if_pos hn, hc]
  · intro hn hc
    have hne : b.name ≠ "execute_python" := by rw [hn]; decide
    unfold handle_tool_call
    rw [if_neg hne, if_pos hn, hc]
  · intro model ks mt fuel st hb hsr hns
    rw [runAux, if_neg hb, hsr]
    rcases hp : processBlocks ks (model st.messages).content st.rt with ⟨rs, t, rtx⟩
    have hnone : t = none := by
      have := processBlocks_no_submit ks (model st.messages).content st.rt hns
      rw [hp] at this
      exact this
    rw [hnone]
    exact ⟨_, rfl⟩

/-- C5 witness: a concrete truncated `execute_python` block, a concrete
truncated `submit_html` block, and a concrete response carrying only the
truncated execute block, on which the loop takes another iteration. -/
theorem truncated_tool_call_recovery_witness :
    handle_tool_call rt0 KernelOutcome.timeout ⟨"id1", "execute_python", none, none⟩ =
      (.result ("Error: execute_python call was truncated. Please retry with complete code."), rt0) ∧
    handle_tool_call rt0 KernelOutcome.timeout ⟨"id2", "submit_html", none, none⟩ =
      (.result ("Error: submit_html call was truncated. Please try again with complete HTML content."), rt0) ∧
    ∃ st', runAux (fun _ => ⟨.tool_use, [.tool_use ⟨"id1", "execute_python", none, none⟩], ⟨1, 1⟩⟩)
        ks0 100000 1 ⟨[], 0, 0, rt0⟩ =
      runAux (fun _ => ⟨.tool_use, [.tool_use ⟨"id1", "execute_python", none, none⟩], ⟨1, 1⟩⟩)
        ks0 100000 0 st' :=
  ⟨(truncated_tool_call_recovery rt0 .timeout ⟨"id1", "execute_python", none, none⟩).1 rfl rfl,
    (truncated_tool_call_recovery rt0 .timeout ⟨"id2", "submit_html", none, none⟩).2.1 rfl rfl,
    (truncated_tool_call_recovery rt0 .timeout ⟨"id1", "execute_python", none, none⟩).2.2
      (fun _ => ⟨.tool_use, [.tool_use ⟨"id1", "execute_python", none, none⟩], ⟨1, 1⟩⟩)
      ks0 100000 0 ⟨[], 0, 0, rt0⟩ (by decide)
      rfl
      (by intro tb htb; simp at htb; rw [htb]; decide)⟩

/-- C5 counterexample: the retry message of the source names
`execute_python`; it is not the claimed literal
"Error: execute_code call was truncated. Please retry with complete code.". -/
theorem truncated_message_cex :
    (handle_tool_call rt0 KernelOutcome.timeout ⟨"id1", "execute_python", none, none⟩).1 =
      ToolCallResult.result ("Error: execute_python call was truncated. Please retry with complete code.") ∧
    ("Error: execute_python call was truncated. Please retry with complete code." : String) ≠
      "Error: execute_code call was truncated. Please retry with complete code." := by
  exact ⟨rfl, by decide⟩

/-! ## C10 -/

/-- C10 (confirmed): in each iteration the output-token budget is checked
immediately after accumulating the response's usage and before any
tool-use block is dispatched: whenever a response pushes the cumulative
output tokens over `max_tokens`, the iteration fails with the budget error
at once — for every kernel-outcome stream, every response content
(including one carrying a well-formed submit call) and every stop
reason — so no tool of that response is executed.  (`AgentLoop.run` is
`runAux` at fuel 50 from the initial state.) -/
theorem budget_checked_before_dispatch (model : List Message → Response)
    (ks : Nat → KernelOutcome) (mt fuel : Nat) (st : LoopState)
    (h : st.output_tokens + (model st.messages).usage.output_tokens > mt) :
    runAux model ks mt (fuel + 1) st =
      Except.error (LoopError.token_budget
        (st.output_tokens + (model st.messages).usage.output_tokens) mt) := by
  rw [runAux, if_pos h]

/-- C10 witness: a first response that alone overruns a budget of 0 tokens
fails with the budget error even though it contains a well-formed submit
call. -/
theorem budget_checked_before_dispatch_witness :
    (LoopState.mk [] 0 0 rt0).output_tokens +
        (submitModel (LoopState.mk [] 0 0 rt0).messages).usage.output_tokens > 0 ∧
    runAux submitModel ks0 0 50 ⟨[], 0, 0, rt0⟩ =
      Except.error (LoopError.token_budget 1 0) :=
  ⟨by decide, budget_checked_before_dispatch submitModel ks0 0 49 ⟨[], 0, 0, rt0⟩ (by decide)⟩

/-! ## C7 -/

/-- C7 (confirmed): `acquire` pops an idle container when one exists,
restarts it when its reloaded status is not running, and wraps it in a
fresh `ContainerRuntime` carrying the new database URL and store
credentials with empty histories; with no idle container and the pool
under its size bound it creates a fresh (running) container; otherwise it
raises the pool-exhausted error.  (The size check of the source compares
`len(_in_use)` with `pool_size`, which at that point equals the number of
live sandboxes since the idle list is empty.) -/
theorem pool_acquire_spec (p : ContainerPool) (db : Option String)
    (s3 : List (String × String)) (newC : Container) :
    (∀ c, p.available.getLast? = some c →
      p.acquire db s3 newC =
        Except.ok (ContainerRuntime.init ⟨c.id, "running"⟩ db s3,
          ⟨p.pool_size, p.available.dropLast, p.in_use.insert c.id⟩)) ∧
    (p.available = [] → p.in_use.length < p.pool_size → newC.status = "running" →
      p.acquire db s3 newC =
        Except.ok (ContainerRuntime.init newC db s3,
          ⟨p.pool_size, p.available, p.in_use.insert newC.id⟩)) ∧
    (p.available = [] → ¬ p.in_use.length < p.pool_size →
      p.acquire db s3 newC = Except.error (.pool_exhausted p.pool_size)) := by
  refine ⟨?_, ?_, ?_⟩
  · intro c hc
    unfold ContainerPool.acquire
    rw [hc]
    dsimp only
    by_cases hs : c.status = "running"
    · rw [if_pos hs]
      obtain ⟨cid, cst⟩ := c
      simp only at hs
      subst hs
      rfl
    · rw [if_neg hs]
  · intro hav hlt hrun
    unfold ContainerPool.acquire
    rw [hav]
    simp only [List.getLast?_nil]
    rw [if_pos hlt, if_pos hrun]
  · intro hav hge
    unfold ContainerPool.acquire
    rw [hav]
    simp only [List.getLast?_nil]
    rw [if_neg hge]

/-- C7 witness: all three branches at concrete pools. -/
theorem pool_acquire_spec_witness :
    ((⟨5, [⟨"a", "exited"⟩], []⟩ : ContainerPool).acquire (some ("db://x")) [] cont0 =
      Except.ok (ContainerRuntime.init ⟨"a", "running"⟩ (some ("db://x")) [],
        ⟨5, [], ["a"]⟩)) ∧
    ((⟨5, [], ["b"]⟩ : ContainerPool).acquire none [] cont0 =
      Except.ok (ContainerRuntime.init cont0 none [], ⟨5, [], ["c0", "b"]⟩)) ∧
    ((⟨1, [], ["b"]⟩ : ContainerPool).acquire none [] cont0 =
      Except.error (.pool_exhausted 1)) := by
  refine ⟨?_, ?_, ?_⟩
  · have h := (pool_acquire_spec ⟨5, [⟨"a", "exited"⟩], []⟩ (some ("db://x")) [] cont0).1
      ⟨"a", "exited"⟩ rfl
    simpa using h
  · have h := (pool_acquire_spec ⟨5, [], ["b"]⟩ none [] cont0).2.1 rfl (by decide) rfl
    simpa using h
  · exact (pool_acquire_spec ⟨1, [], ["b"]⟩ none [] cont0).2.2 rfl (by decide)

/-! ## C3 -/

/-- Prefix-closed properties of a list need only be checked on prefixes up
to its length. -/
theorem forall_take_of_ball (l : List WfEvent) (Q : List WfEvent → Prop)
    (h : ∀ n, n ≤ l.length → Q (l.take n)) : ∀ n, Q (l.take n) := by
  intro n
  by_cases hn : n ≤ l.length
  · exact h n hn
  · rw [List.take_of_length_le (Nat.le_of_lt (Nat.lt_of_not_le hn))]
    have := h l.length (Nat.le_refl _)
    rwa [List.take_length] at this

/-- C3 (confirmed): in every workflow run, at any point of execution (any
prefix of the event trace), once `recent_summary.html` has been written,
`catalog.html`, `catalog_script.py` and `summary_script.py` have already
been written; and once `reset()` has run, `catalog_script.py` and
`catalog.html` have already been written. -/
theorem workflow_write_ordering (catalogRun summaryRun : Except LoopError String) :
    ∀ n,
      ((WfEvent.write_html ("recent_summary.html")) ∈ (workflowTrace catalogRun summaryRun).take n →
        (WfEvent.write_html ("catalog.html")) ∈ (workflowTrace catalogRun summaryRun).take n ∧
        (WfEvent.write_script ("catalog_script.py")) ∈ (workflowTrace catalogRun summaryRun).take n ∧
        (WfEvent.write_script ("summary_script.py")) ∈ (workflowTrace catalogRun summaryRun).take n) ∧
      (WfEvent.reset ∈ (workflowTrace catalogRun summaryRun).take n →
        (WfEvent.write_script ("catalog_script.py")) ∈ (workflowTrace catalogRun summaryRun).take n ∧
        (WfEvent.write_html ("catalog.html")) ∈ (workflowTrace catalogRun summaryRun).take n) := by
  cases catalogRun with
  | error e =>
    rw [show workflowTrace (Except.error e) summaryRun =
      [WfEvent.acquire, WfEvent.release] from rfl]
    apply forall_take_of_ball [WfEvent.acquire, WfEvent.release]
      (fun tr => ((WfEvent.write_html ("recent_summary.html")) ∈ tr →
        (WfEvent.write_html ("catalog.html")) ∈ tr ∧
        (WfEvent.write_script ("catalog_script.py")) ∈ tr ∧
        (WfEvent.write_script ("summary_script.py")) ∈ tr) ∧
       (WfEvent.reset ∈ tr →
        (WfEvent.write_script ("catalog_script.py")) ∈ tr ∧
        (WfEvent.write_html ("catalog.html")) ∈ tr))
    decide
  | ok ch =>
    cases summaryRun with
    | error e =>
      rw [show workflowTrace (Except.ok ch) (Except.error e) =
        [WfEvent.acquire, WfEvent.write_script ("catalog_script.py"),
          WfEvent.write_html ("catalog.html"), WfEvent.reset, WfEvent.release] from rfl]
      apply forall_take_of_ball [WfEvent.acquire, WfEvent.write_script ("catalog_script.py"),
        WfEvent.write_html ("catalog.html"), WfEvent.reset, WfEvent.release]
        (fun tr => ((WfEvent.write_html ("recent_summary.html")) ∈ tr →
          (WfEvent.write_html ("catalog.html")) ∈ tr ∧
          (WfEvent.write_script ("catalog_script.py")) ∈ tr ∧
          (WfEvent.write_script ("summary_script.py")) ∈ tr) ∧
         (WfEvent.reset ∈ tr →
          (WfEvent.write_script ("catalog_script.py")) ∈ tr ∧
          (WfEvent.write_html ("catalog.html")) ∈ tr))
      decide
    | ok sh =>
      rw [show workflowTrace (Except.ok ch) (Except.ok sh) =
        [WfEvent.acquire, WfEvent.write_script ("catalog_script.py"),
          WfEvent.write_html ("catalog.html"), WfEvent.reset,
          WfEvent.write_script ("summary_script.py"),
          WfEvent.write_html ("recent_summary.html"), WfEvent.release] from rfl]
      apply forall_take_of_ball [WfEvent.acquire, WfEvent.write_script ("catalog_script.py"),
        WfEvent.write_html ("catalog.html"), WfEvent.reset,
        WfEvent.write_script ("summary_script.py"),
        WfEvent.write_html ("recent_summary.html"), WfEvent.release]
        (fun tr => ((WfEvent.write_html ("recent_summary.html")) ∈ tr →
          (WfEvent.write_html ("catalog.html")) ∈ tr ∧
          (WfEvent.write_script ("catalog_script.py")) ∈ tr ∧
          (WfEvent.write_script ("summary_script.py")) ∈ tr) ∧
         (WfEvent.reset ∈ tr →
          (WfEvent.write_script ("catalog_script.py")) ∈ tr ∧
          (WfEvent.write_html ("catalog.html")) ∈ tr))
      decide

/-- C3 witness: on the happy-path trace, the full prefix contains the
summary artifact, and the three other artifacts are indeed present. -/
theorem workflow_write_ordering_witness :
    (WfEvent.write_html ("recent_summary.html")) ∈
        (workflowTrace (Except.ok ("c")) (Except.ok ("s"))).take 7 ∧
      (WfEvent.write_html ("catalog.html")) ∈
        (workflowTrace (Except.ok ("c")) (Except.ok ("s"))).take 7 ∧
      (WfEvent.write_script ("catalog_script.py")) ∈
        (workflowTrace (Except.ok ("c")) (Except.ok ("s"))).take 7 ∧
      (WfEvent.write_script ("summary_script.py")) ∈
        (workflowTrace (Except.ok ("c")) (Except.ok ("s"))).take 7 :=
  ⟨by decide,
    (workflow_write_ordering (Except.ok ("c")) (Except.ok ("s")) 7).1 (by decide)⟩

/-! ## C9 -/

/-- C9 (code bug): the comment written by `write_comment("cust/db",
"2026-01-01T00:00:00Z", "alice", ...)` at creation time
`"2026-10-12T00:00:00Z"` is listed by `list_comments` with
`user = "alice-2026-10"` and `date = "12T00:00:00Z"`: the
`filename.rsplit("-", 1)` of the source splits at the last hyphen, which
lies inside the hyphen-bearing timestamp that `write_comment` itself
embeds in the filename, so the original `user` and the creation timestamp
are never recovered. -/
theorem list_comments_mangles_user_and_date :
    list_comments
        [writeCommentKey ("cust/db") ("2026-01-01T00:00:00Z") ("alice") ("2026-10-12T00:00:00Z")] =
      [⟨"alice-2026-10-12T00:00:00Z.txt",
        "cust/db/2026-01-01T00:00:00Z/comments/alice-2026-10-12T00:00:00Z.txt",
        "alice-2026-10", "12T00:00:00Z"⟩] ∧
    (∀ e ∈ list_comments
        [writeCommentKey ("cust/db") ("2026-01-01T00:00:00Z") ("alice") ("2026-10-12T00:00:00Z")],
      e.user ≠ "alice" ∧ e.date ≠ "2026-10-12T00:00:00Z") := by
  constructor
  · rfl
  · decide

/-! ## Helper lemmas for timestamp formatting and listing -/

/-- `padDigits` always renders exactly `k` characters. -/
theorem padDigits_length (k : Nat) : ∀ n, (padDigits k n).length = k := by
  induction k with
  | zero => intro n; rfl
  | succ k ih => intro n; simp [padDigits, ih]

/-- Decimal digit characters are ordered like the digits they render. -/
theorem digitChar_lt {a b : Nat} (h : a < b) (hb : b ≤ 9) :
    Nat.digitChar a < Nat.digitChar b := by
  have ha : a ≤ 9 := le_trans (le_of_lt h) hb
  interval_cases a <;> interval_cases b <;> first | omega | decide

/-- Lexicographic comparison of equal-length lists survives appending
arbitrary tails. -/
theorem lex_append_of_length_eq {α : Type} {r : α → α → Prop} (t1 t2 : List α) :
    ∀ {l1 l2 : List α}, l1.length = l2.length → List.Lex r l1 l2 →
      List.Lex r (l1 ++ t1) (l2 ++ t2) := by
  intro l1
  induction l1 with
  | nil =>
    intro l2 hlen h
    cases h
    simp at hlen
  | cons a as ih =>
    intro l2 hlen h
    cases h with
    | rel hr => exact List.Lex.rel hr
    | cons h' => exact List.Lex.cons (ih (by simpa using hlen) h')

/-- Fixed-width zero-padded rendering is strictly monotone below `10^k`. -/
theorem padDigits_lt : ∀ (k n m : Nat), n < m → m < 10 ^ k →
    List.Lex (· < ·) (padDigits k n) (padDigits k m) := by
  intro k
  induction k with
  | zero =>
    intro n m hnm hm
    simp only [pow_zero] at hm
    omega
  | succ k ih =>
    intro n m hnm hm
    have hsplit : n / 10 < m / 10 ∨ (n / 10 = m / 10 ∧ n % 10 < m % 10) := by omega
    simp only [padDigits]
    cases hsplit with
    | inl hq =>
      have hm' : m / 10 < 10 ^ k := by
        have h10 : (0 : Nat) < 10 := by norm_num
        rw [Nat.div_lt_iff_lt_mul h10]
        calc m < 10 ^ (k + 1) := hm
          _ = 10 ^ k * 10 := by rw [pow_succ]
      exact lex_append_of_length_eq _ _
        (by simp [padDigits_length]) (ih (n / 10) (m / 10) hq hm')
    | inr hqr =>
      rw [hqr.1]
      exact List.Lex.append_left _ (List.Lex.rel (digitChar_lt hqr.2 (by omega))) _

/-- Chronologically-later valid datetimes render to lexicographically
larger character lists. -/
theorem tsChars_lt (a b : PyDatetime) (ha : a.valid) (hb : b.valid)
    (h : List.Lex (· < ·) a.fields b.fields) :
    List.Lex (· < ·) (tsChars a) (tsChars b) := by
  obtain ⟨y1, mo1, dd1, hh1, mi1, ss1⟩ := a
  obtain ⟨y2, mo2, dd2, hh2, mi2, ss2⟩ := b
  obtain ⟨hv1, hv2, hv3, hv4, hv5, hv6, hv7, hv8, hv9⟩ := ha
  obtain ⟨hw1, hw2, hw3, hw4, hw5, hw6, hw7, hw8, hw9⟩ := hb
  have hb2 : y2 ≤ 9999 := hw2
  have hb4 : mo2 ≤ 12 := hw4
  have hb6 : dd2 ≤ 31 := hw6
  have hb7 : hh2 ≤ 23 := hw7
  have hb8 : mi2 ≤ 59 := hw8
  have hb9 : ss2 ≤ 59 := hw9
  simp only [PyDatetime.fields] at h
  simp only [tsChars, List.append_assoc]
  cases h with
  | rel hlt =>
    exact lex_append_of_length_eq _ _ (by simp [padDigits_length])
      (padDigits_lt 4 _ _ hlt (by norm_num; omega))
  | cons h =>
    cases h with
    | rel hlt =>
      refine List.Lex.append_left _ ?_ _
      refine List.Lex.append_left _ ?_ _
      exact lex_append_of_length_eq _ _ (by simp [padDigits_length])
        (padDigits_lt 2 _ _ hlt (by norm_num; omega))
    | cons h =>
      cases h with
      | rel hlt =>
        refine List.Lex.append_left _ ?_ _
        refine List.Lex.append_left _ ?_ _
        refine List.Lex.append_left _ ?_ _
        refine List.Lex.append_left _ ?_ _
        exact lex_append_of_length_eq _ _ (by simp [padDigits_length])
          (padDigits_lt 2 _ _ hlt (by norm_num; omega))
      | cons h =>
        cases h with
        | rel hlt =>
          refine List.Lex.append_left _ ?_ _
          refine List.Lex.append_left _ ?_ _
          refine List.Lex.append_left _ ?_ _
          refine List.Lex.append_left _ ?_ _
          refine List.Lex.append_left _ ?_ _
          refine List.Lex.append_left _ ?_ _
          exact lex_append_of_length_eq _ _ (by simp [padDigits_length])
            (padDigits_lt 2 _ _ hlt (by norm_num; omega))
        | cons h =>
          cases h with
          | rel hlt =>
            refine List.Lex.append_left _ ?_ _
            refine List.Lex.append_left _ ?_ _
            refine List.Lex.append_left _ ?_ _
            refine List.Lex.append_left _ ?_ _
            refine List.Lex.append_left _ ?_ _
            refine List.Lex.append_left _ ?_ _
            refine List.Lex.append_left _ ?_ _
            refine List.Lex.append_left _ ?_ _
            exact lex_append_of_length_eq _ _ (by simp [padDigits_length])
              (padDigits_lt 2 _ _ hlt (by norm_num; omega))
          | cons h =>
            cases h with
            | rel hlt =>
              refine List.Lex.append_left _ ?_ _
              refine List.Lex.append_left _ ?_ _
              refine List.Lex.append_left _ ?_ _
              refine List.Lex.append_left _ ?_ _
              refine List.Lex.append_left _ ?_ _
              refine List.Lex.append_left _ ?_ _
              refine List.Lex.append_left _ ?_ _
              refine List.Lex.append_left _ ?_ _
              refine List.Lex.append_left _ ?_ _
              refine List.Lex.append_left _ ?_ _
              exact lex_append_of_length_eq _ _ (by simp [padDigits_length])
                (padDigits_lt 2 _ _ hlt (by norm_num; omega))
            | cons h => cases h

/-- `splitList` never returns the empty list of pieces. -/
theorem splitList_ne_nil (sep : Char) : ∀ l : List Char, splitList sep l ≠ []
  | [] => by simp [splitList]
  | c :: rest => by
    simp only [splitList]
    split
    · simp
    · split <;> simp

/-- Splitting across an explicit separator concatenates the two splits. -/
theorem splitList_append (sep : Char) (ys : List Char) :
    ∀ xs : List Char,
      splitList sep (xs ++ sep :: ys) = splitList sep xs ++ splitList sep ys := by
  intro xs
  induction xs with
  | nil => simp [splitList]
  | cons c xs ih =>
    by_cases hc : c = sep
    · subst hc
      simp [splitList, ih]
    · simp only [List.cons_append, splitList, if_neg hc, List.append_eq]
      rw [ih]
      rcases hsx : splitList sep xs with _ | ⟨r, rs⟩
      · exact absurd hsx (splitList_ne_nil sep xs)
      · simp

/-- A separator-free list splits into itself. -/
theorem splitList_sep_free (sep : Char) :
    ∀ l : List Char, (∀ c ∈ l, c ≠ sep) → splitList sep l = [l] := by
  intro l
  induction l with
  | nil => intro _; rfl
  | cons c rest ih =>
    intro h
    have hc : c ≠ sep := h c (List.mem_cons_self _ _)
    simp only [splitList, if_neg hc, ih (fun x hx => h x (List.mem_cons_of_mem _ hx))]

/-- Stripping the trailing slash from a listing item of the shape
`{pfx}/{t}/` (with `t` non-empty and slash-free) recovers `{pfx}/{t}`. -/
theorem pyRstrip_item (xs t : List Char) (ht : t ≠ []) (hfree : '/' ∉ t) :
    pyRstripChar (String.mk (xs ++ '/' :: (t ++ ['/']))) '/' =
      String.mk (xs ++ '/' :: t) := by
  rcases hrev : t.reverse with _ | ⟨a, rest⟩
  · exact absurd (by simpa using congrArg List.reverse hrev) ht
  · have ht2 : t = rest.reverse ++ [a] := by
      have := congrArg List.reverse hrev
      simpa using this
    have ha : a ∈ t := by rw [ht2]; simp
    have hane : ¬ (a = '/') := fun heq => hfree (heq ▸ ha)
    subst ht2
    unfold pyRstripChar
    congr 1
    show ((xs ++ '/' :: ((rest.reverse ++ [a]) ++ ['/'])).reverse.dropWhile
      (fun x => x = '/')).reverse = xs ++ '/' :: (rest.reverse ++ [a])
    have hstep : (xs ++ '/' :: ((rest.reverse ++ [a]) ++ ['/'])).reverse =
        '/' :: a :: (rest ++ '/' :: xs.reverse) := by
      simp
    rw [hstep]
    simp [List.dropWhile_cons, hane]

/-- The timestamp-extraction step recovers the timestamp from a listing
item of the shape `{pfx}/{t}/`. -/
theorem timestampOfItem_run (pfx t : String) (ht : t.toList ≠ [])
    (hfree : '/' ∉ t.toList) :
    timestampOfItem (pfx ++ "/" ++ t ++ "/") = some t := by
  have hitem : (pfx ++ "/" ++ t ++ "/") =
      String.mk (pfx.toList ++ '/' :: (t.toList ++ ['/'])) := by
    apply String.toList_inj.mp
    show (pfx ++ "/" ++ t ++ "/").data = pfx.data ++ '/' :: (t.data ++ ['/'])
    simp [String.data_append]
  rw [hitem]
  unfold timestampOfItem
  rw [pyRstrip_item pfx.toList t.toList ht hfree]
  have hsplit : splitList '/' (pfx.toList ++ '/' :: t.toList) =
      splitList '/' pfx.toList ++ [t.toList] := by
    rw [splitList_append '/' t.toList pfx.toList,
      splitList_sep_free '/' t.toList (fun c hc heq => hfree (heq ▸ hc))]
  have hparts : pySplit (String.mk (pfx.toList ++ '/' :: t.toList)) '/' =
      (splitList '/' pfx.toList).map String.mk ++ [t] := by
    unfold pySplit
    show (splitList '/' (pfx.toList ++ '/' :: t.toList)).map String.mk = _
    rw [hsplit]
    simp
  rw [hparts]
  have hlen : ((splitList '/' pfx.toList).map String.mk ++ [t]).length ≥ 2 := by
    have h1 : (splitList '/' pfx.toList).length ≥ 1 :=
      List.length_pos.mpr (splitList_ne_nil '/' pfx.toList)
    simp only [List.length_append, List.length_map, List.length_cons, List.length_nil]
    omega
  rw [if_pos hlen]
  rw [List.getLast?_concat]

/-- A sorted-descending truncation: the output of `list_timestamps` is
sorted by `≥`. -/
theorem list_timestamps_sorted (items : List String) (limit : Nat) :
    List.Sorted (· ≥ ·) (list_timestamps items limit) := by
  unfold list_timestamps
  exact (List.sorted_insertionSort _ _).sublist (List.take_sublist _ _)

/-- Indices in a truncation read from the untruncated list. -/
theorem get_take_eq (l : List String) (limit k : Nat)
    (hk : k < (l.take limit).length) :
    (l.take limit).get ⟨k, hk⟩ =
      l.get ⟨k, by rw [List.length_take] at hk; exact lt_of_lt_of_le hk (min_le_right _ _)⟩ := by
  simp [List.get_eq_getElem, List.getElem_take]

/-- An index into the truncated listing is an index into the full sorted
listing. -/
theorem list_timestamps_lt_length (items : List String) (limit k : Nat)
    (hk : k < (list_timestamps items limit).length) :
    k < (List.insertionSort (· ≥ ·) (items.filterMap timestampOfItem)).length := by
  unfold list_timestamps at hk
  rw [List.length_take] at hk
  exact lt_of_lt_of_le hk (min_le_right _ _)

/-- Reading the truncated listing at an index reads the full sorted
listing. -/
theorem list_timestamps_get (items : List String) (limit k : Nat)
    (hk : k < (list_timestamps items limit).length) :
    (list_timestamps items limit).get ⟨k, hk⟩ =
      (List.insertionSort (· ≥ ·) (items.filterMap timestampOfItem)).get
        ⟨k, list_timestamps_lt_length items limit k hk⟩ := by
  simp [list_timestamps, List.get_eq_getElem, List.getElem_take]

/-! ## C8 -/

/-- C8 (confirmed): `generate_timestamp` is monotone — for UTC instants
`d1 ≤ d2` (lexicographic order on the calendar fields of valid datetimes)
the rendered timestamps satisfy `generate_timestamp d1 ≤
generate_timestamp d2` as strings; and for any prefix with runs at
`t1 < t2`, `list_timestamps` returns at most `limit` entries, yields `t2`
at a strictly earlier position than `t1` wherever both appear, and never
drops `t2` while keeping `t1`. -/
theorem timestamp_ordering :
    (∀ a b : PyDatetime, a.valid → b.valid → a.chronLe b →
      generate_timestamp a ≤ generate_timestamp b) ∧
    (∀ (items : List String) (limit : Nat) (pfx t1 t2 : String),
      (pfx ++ "/" ++ t1 ++ "/") ∈ items → (pfx ++ "/" ++ t2 ++ "/") ∈ items →
      t1.toList ≠ [] → t2.toList ≠ [] → '/' ∉ t1.toList → '/' ∉ t2.toList →
      t1 < t2 →
      (list_timestamps items limit).length ≤ limit ∧
      (∀ i j : Fin (list_timestamps items limit).length,
        (list_timestamps items limit).get i = t2 →
        (list_timestamps items limit).get j = t1 → (i : Nat) < (j : Nat)) ∧
      (t1 ∈ list_timestamps items limit → t2 ∈ list_timestamps items limit)) := by
  constructor
  · intro a b ha hb h
    cases h with
    | inl he =>
      apply le_of_eq
      obtain ⟨y1, mo1, dd1, hh1, mi1, ss1⟩ := a
      obtain ⟨y2, mo2, dd2, hh2, mi2, ss2⟩ := b
      simp only [PyDatetime.fields, List.cons.injEq, and_true] at he
      obtain ⟨rfl, rfl, rfl, rfl, rfl, rfl⟩ := he
      rfl
    | inr hlex =>
      apply le_of_lt
      rw [String.lt_iff_toList_lt]
      exact tsChars_lt a b ha hb hlex
  · intro items limit pfx t1 t2 h1 h2 hne1 hne2 hf1 hf2 hlt
    have hsorted := list_timestamps_sorted items limit
    refine ⟨?_, ?_, ?_⟩
    · simp [list_timestamps]
    · intro i j hi2 hj1
      by_contra hcon
      push_neg at hcon
      rcases Nat.eq_or_lt_of_le hcon with heq | hlt2
      · have : i = j := Fin.ext heq.symm
        rw [this, hj1] at hi2
        exact absurd hi2 (ne_of_lt hlt)
      · have hge := hsorted.rel_get_of_lt (show j < i from hlt2)
        rw [hi2, hj1] at hge
        exact absurd hlt (not_lt.mpr hge)
    · intro hmem1
      have ht2mem : t2 ∈ items.filterMap timestampOfItem :=
        List.mem_filterMap.mpr ⟨_, h2, timestampOfItem_run pfx t2 hne2 hf2⟩
      have ht2sorted : t2 ∈ List.insertionSort (· ≥ ·) (items.filterMap timestampOfItem) :=
        ((List.perm_insertionSort _ _).mem_iff).mpr ht2mem
      obtain ⟨i, hi⟩ := List.mem_iff_get.mp hmem1
      obtain ⟨j, hj⟩ := List.mem_iff_get.mp ht2sorted
      have hi2 : (List.insertionSort (· ≥ ·) (items.filterMap timestampOfItem)).get
          ⟨i.val, list_timestamps_lt_length items limit i.val i.isLt⟩ = t1 := by
        rw [← list_timestamps_get items limit i.val i.isLt]
        exact hi
      by_cases hji : (j : Nat) < (i : Nat)
      · have hjlt : (j : Nat) < (list_timestamps items limit).length :=
          lt_trans hji i.isLt
        refine List.mem_iff_get.mpr ⟨⟨j.val, hjlt⟩, ?_⟩
        rw [list_timestamps_get items limit j.val hjlt]
        exact hj
      · push_neg at hji
        exfalso
        rcases Nat.eq_or_lt_of_le hji with heq | hlt2
        · have heq2 : (⟨i.val, list_timestamps_lt_length items limit i.val i.isLt⟩ :
              Fin (List.insertionSort (· ≥ ·) (items.filterMap timestampOfItem)).length) = j :=
            Fin.ext heq
          rw [heq2, hj] at hi2
          exact absurd hi2.symm (ne_of_lt hlt)
        · have hge := (List.sorted_insertionSort (· ≥ ·)
            (items.filterMap timestampOfItem)).rel_get_of_lt
            (show (⟨i.val, list_timestamps_lt_length items limit i.val i.isLt⟩ :
              Fin _) < j from hlt2)
          rw [hj, hi2] at hge
          exact absurd hlt (not_lt.mpr hge)

/-- C8 witness: two concrete runs under one prefix, with the earlier and
the later timestamp, and two concrete valid datetimes. -/
theorem timestamp_ordering_witness :
    generate_timestamp ⟨2024, 1, 15, 10, 0, 0⟩ ≤ generate_timestamp ⟨2024, 2, 1, 0, 0, 0⟩ ∧
    (list_timestamps
        ["c/d/2024-01-15T10:00:00Z/", "c/d/2024-02-15T10:00:00Z/"] 10).length ≤ 10 :=
  ⟨timestamp_ordering.1 ⟨2024, 1, 15, 10, 0, 0⟩ ⟨2024, 2, 1, 0, 0, 0⟩
      (by decide) (by decide)
      (Or.inr (List.Lex.cons (List.Lex.rel (by norm_num)))),
    (timestamp_ordering.2 ["c/d/2024-01-15T10:00:00Z/", "c/d/2024-02-15T10:00:00Z/"]
      10 ("c/d") ("2024-01-15T10:00:00Z") ("2024-02-15T10:00:00Z")
      (by decide) (by decide) (by decide) (by decide) (by decide) (by decide)
      (by rw [String.lt_iff_toList_lt]; decide)).1⟩

end Cataloger
